import Mathlib

/-
  Verification of the socket helper layer of readsb-protobuf (src/anet.c).

  The C functions are shallowly embedded: kernel calls (socket, setsockopt,
  fcntl, connect, bind, listen, accept, read, write, getaddrinfo) are external
  to the repository, so each call site receives its outcome as an explicit
  input (a SysRes value or a list of per-call results).  Resource effects that
  the claims talk about (descriptors opened and closed, the resolved address
  list being freed, writes to the caller-provided error buffer) are tracked in
  an explicit effect record threaded through the control flow, which follows
  the C line by line.
-/

namespace Anet

/-- ANET_OK from anet.h. -/
def ANET_OK : Int := 0

/-- ANET_ERR from anet.h. -/
def ANET_ERR : Int := -1

/-- AF_INET (Linux value). -/
def AF_INET : Nat := 2

/-- AF_INET6 (Linux value). -/
def AF_INET6 : Nat := 10

/-- EINPROGRESS errno (Linux value). -/
def EINPROGRESS : Nat := 115

/-- EINTR errno (Linux value). -/
def EINTR : Nat := 4

/-- The size of a pointer on the target platform (LP64): this is the value of
the C expressions sizeof(&ss) used in anetTcpGenericConnect,
anetTcpNonBlockConnectAddr and anetTcpAccept, where &ss is a pointer. -/
def sizeofPtr : Nat := 8

/-- Outcome of one kernel call: a successful value or a failure with errno. -/
inductive SysRes (α : Type) where
  | ok (v : α)
  | err (errno : Nat)
deriving DecidableEq, Repr

/-- Whether a kernel call outcome is a success. -/
def SysRes.isOk {α : Type} : SysRes α → Bool
  | .ok _ => true
  | .err _ => false

/-- Model of libc strerror: an arbitrary fixed rendering of the errno. -/
def strerror (e : Nat) : String := "errno " ++ toString e

/-- Model of gai_strerror: an arbitrary fixed rendering of the resolver error. -/
def gaiStrerror (e : Nat) : String := "gai error " ++ toString e

/-- Observable effects of a call: the contents of the caller-provided error
buffer (none = never written, i.e. left untouched), the descriptors returned
by socket(), the descriptors passed to close(), the descriptors that received
IPV6_V6ONLY, and whether freeaddrinfo was called on the resolved list. -/
structure Eff where
  sink : Option String
  opened : List Nat
  closed : List Nat
  v6only : List Nat
  freed : Bool
deriving DecidableEq, Repr

/-- The effect state at function entry. -/
def emptyEff : Eff := { sink := none, opened := [], closed := [], v6only := [], freed := false }

/-- anetSetError (src/anet.c:72): vsnprintf overwrites the fixed buffer, so the
buffer afterwards holds exactly the new message. -/
def setErr (e : Eff) (m : String) : Eff := { e with sink := some m }

/-- Outcomes of the two kernel calls inside anetCreateSocket. -/
structure CreateBeh where
  sockRes : SysRes Nat
  reuseRes : SysRes Unit
deriving DecidableEq, Repr

/-- Outcomes of the kernel calls issued for one resolved candidate on the
connect path: socket/setsockopt (create), fcntl F_GETFL, fcntl F_SETFL, and
connect (ok means connect returned nonnegative). -/
structure CandBehavior where
  create : CreateBeh
  getflRes : SysRes Nat
  setflRes : SysRes Unit
  connRes : SysRes Unit
deriving DecidableEq, Repr

/-- One entry of the resolved address list (struct addrinfo): ai_family, the
ai_addrlen bytes of ai_addr, and the kernel-call outcomes for this candidate. -/
structure Cand where
  family : Nat
  addrBytes : List Nat
  beh : CandBehavior
deriving DecidableEq, Repr

/-- anetCreateSocket (src/anet.c:132): socket(), then SO_REUSEADDR.  Note that
on SO_REUSEADDR failure the C code returns ANET_ERR without close(s). -/
def anetCreateSocketM (b : CreateBeh) (e : Eff) : Option Nat × Eff :=
  match b.sockRes with
  | .err en => (none, setErr e ("creating socket: " ++ strerror en))
  | .ok s =>
    match b.reuseRes with
    | .err en => (none, setErr { e with opened := e.opened ++ [s] }
        ("setsockopt SO_REUSEADDR: " ++ strerror en))
    | .ok _ => (some s, { e with opened := e.opened ++ [s] })

/-- anetNonBlock (src/anet.c:82): fcntl F_GETFL then F_SETFL O_NONBLOCK. -/
def anetNonBlockM (b : CandBehavior) (e : Eff) : Bool × Eff :=
  match b.getflRes with
  | .err en => (false, setErr e ("fcntl(F_GETFL): " ++ strerror en))
  | .ok _ =>
    match b.setflRes with
    | .err en => (false, setErr e ("fcntl(F_SETFL,O_NONBLOCK): " ++ strerror en))
    | .ok _ => (true, e)

/-- Result of the connect-path functions: the returned value (socket or
ANET_ERR), the bytes copied into the caller-provided sockaddr_storage slot
(none = nothing was copied), and the accumulated effects. -/
structure ConnResult where
  ret : Int
  ss : Option (List Nat)
  eff : Eff
deriving DecidableEq, Repr

/-- The shared success return of anetTcpGenericConnect (src/anet.c:182-198):
if an out-address slot was passed, memcpy copies sizeof(&ss) bytes of
p.ai_addr into it; then freeaddrinfo; then return the socket. -/
def connectSucceed (s : Nat) (c : Cand) (ssProvided : Bool) (e : Eff) : ConnResult :=
  { ret := (s : Int)
  , ss := if ssProvided then some (c.addrBytes.take sizeofPtr) else none
  , eff := { e with freed := true } }

/-- The candidate loop of anetTcpGenericConnect (src/anet.c:173-205).
Faithful to the C: when nonblocking was requested and anetNonBlock fails, the
function returns ANET_ERR immediately with neither close(s) nor
freeaddrinfo. -/
def connectLoop (flags : Nat) (ssProvided : Bool) : List Cand → Eff → ConnResult
  | [], e => { ret := ANET_ERR, ss := none, eff := { e with freed := true } }
  | c :: rest, e =>
    match anetCreateSocketM c.beh.create e with
    | (none, e1) => connectLoop flags ssProvided rest e1
    | (some s, e1) =>
      match (if flags &&& 1 ≠ 0 then anetNonBlockM c.beh e1 else (true, e1)) with
      | (false, e2) => { ret := ANET_ERR, ss := none, eff := e2 }
      | (true, e2) =>
        match c.beh.connRes with
        | .ok _ => connectSucceed s c ssProvided e2
        | .err en =>
          if en = EINPROGRESS ∧ flags &&& 1 ≠ 0 then
            connectSucceed s c ssProvided e2
          else
            connectLoop flags ssProvided rest
              { setErr e2 ("connect: " ++ strerror en) with closed := e2.closed ++ [s] }

/-- anetTcpGenericConnect (src/anet.c:151): getaddrinfo, then the candidate
loop.  The resolver outcome is an input: failure with a gai error code, or the
resolved list. -/
def anetTcpGenericConnect (host : String) (gai : SysRes (List Cand)) (flags : Nat)
    (ssProvided : Bool) : ConnResult :=
  match gai with
  | .err ge =>
    { ret := ANET_ERR, ss := none
    , eff := setErr emptyEff ("can\x27t resolve " ++ host ++ ": " ++ gaiStrerror ge) }
  | .ok cands => connectLoop flags ssProvided cands emptyEff

/-- anetTcpConnect (src/anet.c:208): flags = ANET_CONNECT_NONE. -/
def anetTcpConnect (host : String) (gai : SysRes (List Cand)) (ssProvided : Bool) : ConnResult :=
  anetTcpGenericConnect host gai 0 ssProvided

/-- anetTcpNonBlockConnect (src/anet.c:213): flags = ANET_CONNECT_NONBLOCK. -/
def anetTcpNonBlockConnect (host : String) (gai : SysRes (List Cand)) (ssProvided : Bool) :
    ConnResult :=
  anetTcpGenericConnect host gai 1 ssProvided

/-- anetTcpNonBlockConnectAddr (src/anet.c:240): one pre-resolved candidate,
no address list.  Faithful to the C: when anetNonBlock fails the function
returns ANET_ERR without close(s). -/
def anetTcpNonBlockConnectAddr (c : Cand) (ssProvided : Bool) : ConnResult :=
  match anetCreateSocketM c.beh.create emptyEff with
  | (none, e1) => { ret := ANET_ERR, ss := none, eff := e1 }
  | (some s, e1) =>
    match anetNonBlockM c.beh e1 with
    | (false, e2) => { ret := ANET_ERR, ss := none, eff := e2 }
    | (true, e2) =>
      match c.beh.connRes with
      | .ok _ =>
        { ret := (s : Int)
        , ss := if ssProvided then some (c.addrBytes.take sizeofPtr) else none
        , eff := e2 }
      | .err en =>
        if en = EINPROGRESS then
          { ret := (s : Int)
          , ss := if ssProvided then some (c.addrBytes.take sizeofPtr) else none
          , eff := e2 }
        else
          { ret := ANET_ERR, ss := none
          , eff := { setErr e2 ("connect: " ++ strerror en) with closed := e2.closed ++ [s] } }

/-- The loop of anetRead (src/anet.c:273): reads is the list of successive
return values of read(2); none means the trace ran out while the loop still
wanted to read (the C program would issue a further read). -/
def anetReadLoop (count : Int) : List Int → Int → Option Int
  | [], totlen => if totlen = count then some totlen else none
  | nread :: rest, totlen =>
    if totlen = count then some totlen
    else if nread = 0 then some totlen
    else if nread = -1 then some (-1)
    else anetReadLoop count rest (totlen + nread)

/-- anetRead (src/anet.c:273) with totlen starting at 0. -/
def anetRead (reads : List Int) (count : Int) : Option Int :=
  anetReadLoop count reads 0

/-- The loop of anetWrite (src/anet.c:288), over the successive return values
of write(2). -/
def anetWriteLoop (count : Int) : List Int → Int → Option Int
  | [], totlen => if totlen = count then some totlen else none
  | nwritten :: rest, totlen =>
    if totlen = count then some totlen
    else if nwritten = 0 then some totlen
    else if nwritten = -1 then some (-1)
    else anetWriteLoop count rest (totlen + nwritten)

/-- anetWrite (src/anet.c:288) with totlen starting at 0. -/
def anetWrite (writes : List Int) (count : Int) : Option Int :=
  anetWriteLoop count writes 0

/-- A POSIX-conforming trace of read/write return values against a remaining
request: each call returns -1, 0, or between 1 and the requested amount
(count minus the total transferred so far). -/
def goodTrace : List Int → Int → Bool
  | [], _ => true
  | r :: rest, remaining =>
    if r = 0 ∨ r = -1 then true
    else decide (1 ≤ r) && decide (r ≤ remaining) && goodTrace rest (remaining - r)

/-- Outcomes of the kernel calls issued for one candidate of anetTcpServer:
socket/setsockopt (create), then bind and listen inside anetListen. -/
structure SrvBeh where
  create : CreateBeh
  bindRes : SysRes Unit
  listenRes : SysRes Unit
deriving DecidableEq, Repr

/-- One entry of the resolved passive address list for anetTcpServer. -/
structure SrvCand where
  family : Nat
  beh : SrvBeh
deriving DecidableEq, Repr

/-- The unconditional IPV6_V6ONLY setsockopt at the top of anetListen
(src/anet.c:302-305); its return value is ignored by the C code. -/
def v6onlyStep (s : Nat) (fam : Nat) (e : Eff) : Eff :=
  if fam = AF_INET6 then { e with v6only := e.v6only ++ [s] } else e

/-- anetListen (src/anet.c:301): IPV6_V6ONLY for v6 families, bind, listen;
on bind or listen failure the socket is closed and ANET_ERR returned. -/
def anetListenM (s : Nat) (fam : Nat) (b : SrvBeh) (e : Eff) : Bool × Eff :=
  match b.bindRes with
  | .err en =>
    (false, { setErr (v6onlyStep s fam e) ("bind: " ++ strerror en) with
              closed := (v6onlyStep s fam e).closed ++ [s] })
  | .ok _ =>
    match b.listenRes with
    | .err en =>
      (false, { setErr (v6onlyStep s fam e) ("listen: " ++ strerror en) with
                closed := (v6onlyStep s fam e).closed ++ [s] })
    | .ok _ => (true, v6onlyStep s fam e)

/-- The candidate loop of anetTcpServer (src/anet.c:347-356): while candidates
remain and fewer than nfds listeners were produced, create a socket (skip the
candidate on failure), bind and listen (skip on failure), else append the
socket to the output array. -/
def serverLoop (nfds : Int) : List SrvCand → List Nat → Eff → List Nat × Eff
  | [], fds, e => (fds, e)
  | c :: rest, fds, e =>
    if (fds.length : Int) < nfds then
      match anetCreateSocketM c.beh.create e with
      | (none, e1) => serverLoop nfds rest fds e1
      | (some s, e1) =>
        match anetListenM s c.family c.beh e1 with
        | (false, e2) => serverLoop nfds rest fds e2
        | (true, e2) => serverLoop nfds rest (fds ++ [s]) e2
    else (fds, e)

/-- Result of anetTcpServer: return value, the descriptors written to the
output array in order, and the accumulated effects. -/
structure ServerResult where
  ret : Int
  fds : List Nat
  eff : Eff
deriving DecidableEq, Repr

/-- anetTcpServer (src/anet.c:324): getaddrinfo with AI_PASSIVE, the candidate
loop, freeaddrinfo, then return i when positive and ANET_ERR otherwise. -/
def anetTcpServer (host : String) (gai : SysRes (List SrvCand)) (nfds : Int) : ServerResult :=
  match gai with
  | .err ge =>
    { ret := ANET_ERR, fds := []
    , eff := setErr emptyEff ("can\x27t resolve " ++ host ++ ": " ++ gaiStrerror ge) }
  | .ok cands =>
    match serverLoop nfds cands [] emptyEff with
    | (fds, e) =>
      { ret := if 0 < fds.length then (fds.length : Int) else ANET_ERR
      , fds := fds
      , eff := { e with freed := true } }

/-- The loop of anetGenericAccept (src/anet.c:362): attempts is the list of
successive accept(2) outcomes; EINTR failures restart the loop, any other
failure writes the error and returns -1, success returns the descriptor with
the sink untouched.  none means the trace ran out while still looping. -/
def anetGenericAcceptM : List (SysRes Nat) → Option (Int × Option String)
  | [] => none
  | att :: rest =>
    match att with
    | .ok fd => some ((fd : Int), none)
    | .err en =>
      if en = EINTR then anetGenericAcceptM rest
      else some (ANET_ERR, some ("accept: " ++ strerror en))

/-- Result of anetTcpAccept: return value, final sink contents, and the bytes
the kernel stored into the caller-provided sockaddr slot. -/
structure AcceptResult where
  ret : Int
  sink : Option String
  ss : Option (List Nat)
deriving DecidableEq, Repr

/-- anetTcpAccept (src/anet.c:379): socklen_t sslen = sizeof(&ss), so accept
is told the storage holds only sizeofPtr bytes and truncates the stored peer
address to that length.  peer is the actual peer socket address. -/
def anetTcpAccept (attempts : List (SysRes Nat)) (peer : List Nat) (ssProvided : Bool) :
    Option AcceptResult :=
  match anetGenericAcceptM attempts with
  | none => none
  | some (fd, sink) =>
    if fd = ANET_ERR then some { ret := ANET_ERR, sink := sink, ss := none }
    else some { ret := fd, sink := sink
              , ss := if ssProvided then some (peer.take sizeofPtr) else none }

/-- Modelled from the spec: the system presentation converter inet_ntop for
AF_INET over the four bytes of sin_addr, producing the dotted-quad form
(inet_ntop itself is libc, not part of this repository). -/
def inetNtop4 : List Nat → String
  | [a, b, c, d] => toString a ++ "." ++ toString b ++ "." ++ toString c ++ "." ++ toString d
  | _ => ""

/-- One lowercase hexadecimal digit. -/
def hexDigit (n : Nat) : Char :=
  if n < 10 then Char.ofNat (48 + n) else Char.ofNat (87 + n)

/-- Lowercase hexadecimal rendering of a 16-bit group, without leading
zeros. -/
def hexStr16 (n : Nat) : String :=
  match [n / 4096 % 16, n / 256 % 16, n / 16 % 16].dropWhile (fun d => d = 0) with
  | [] => String.mk [hexDigit (n % 16)]
  | l => String.mk ((l ++ [n % 16]).map hexDigit)

/-- Modelled from the spec: the system presentation converter inet_ntop for
AF_INET6 over the sixteen bytes of sin6_addr, producing the colon-hex form of
the eight 16-bit groups (inet_ntop itself is libc, not part of this
repository; the zero-run shortening some implementations apply is not
modelled). -/
def inetNtop6 : List Nat → String
  | [b0, b1, b2, b3, b4, b5, b6, b7, b8, b9, b10, b11, b12, b13, b14, b15] =>
    String.intercalate ":"
      ([b0 * 256 + b1, b2 * 256 + b3, b4 * 256 + b5, b6 * 256 + b7,
        b8 * 256 + b9, b10 * 256 + b11, b12 * 256 + b13, b14 * 256 + b15].map hexStr16)
  | _ => ""

/-- A socket address as the C sees it: the sa_family discriminator and the
raw bytes of the whole sockaddr (sockaddr_in keeps sin_addr at offset 4,
sockaddr_in6 keeps sin6_addr at offset 8). -/
structure SockAddrC where
  family : Nat
  bytes : List Nat
deriving DecidableEq, Repr

/-- anetAddrStrdup (src/anet.c:390): dispatch on sa_family; AF_INET formats
sin_addr (offset 4, 4 bytes) as dotted-quad, AF_INET6 formats sin6_addr
(offset 8, 16 bytes) as colon-hex, anything else (including a NULL pointer)
yields the literal NOT_AN_ADDRESS. -/
def anetAddrStrdup (res : Option SockAddrC) : String :=
  match res with
  | some r =>
    if r.family = AF_INET then inetNtop4 ((r.bytes.drop 4).take 4)
    else if r.family = AF_INET6 then inetNtop6 ((r.bytes.drop 8).take 16)
    else "NOT_AN_ADDRESS"
  | none => "NOT_AN_ADDRESS"

/-! Concrete inputs exhibiting the error-path behaviour of the connect code. -/

/-- A resolved candidate whose socket and SO_REUSEADDR calls succeed but whose
fcntl(F_GETFL) fails (errno 22): the anetNonBlock step of the non-blocking
connect path fails on it. -/
def candNonBlockFails : Cand :=
  { family := AF_INET, addrBytes := List.range 16
  , beh := { create := { sockRes := .ok 5, reuseRes := .ok () }
           , getflRes := .err 22, setflRes := .ok (), connRes := .ok () } }

/-- Claim C1: the claim says every exit path of the connect functions releases
the resolved address list, in particular when making the new socket
non-blocking fails.  Evaluating anetTcpNonBlockConnect at a single resolved
candidate whose fcntl(F_GETFL) fails shows the code returns ANET_ERR without
calling freeaddrinfo (freed = false), leaking the list; the blocking variant
on the same candidate does release it. -/
theorem connect_nonblock_failure_leaks_addrinfo :
    (anetTcpNonBlockConnect "h" (.ok [candNonBlockFails]) false).ret = ANET_ERR ∧
    (anetTcpNonBlockConnect "h" (.ok [candNonBlockFails]) false).eff.freed = false ∧
    (anetTcpConnect "h" (.ok [candNonBlockFails]) false).eff.freed = true := by
  decide

/-- A resolved candidate for the non-blocking connect path whose fcntl
fails, used to exhibit the descriptor leak of that path. -/
def candNonBlockFailsB : Cand :=
  { family := AF_INET, addrBytes := List.range 16
  , beh := { create := { sockRes := .ok 5, reuseRes := .ok () }
           , getflRes := .err 22, setflRes := .ok (), connRes := .ok () } }

/-- Claim C2: the claim says a function that allocates a socket and then
fails closes it before returning ERR, in particular anetCreateSocket on
SO_REUSEADDR failure and the connect path on anetNonBlock failure.
Evaluation shows the opposite: anetCreateSocket returns ANET_ERR with the
socket (fd 5) in opened and nothing in closed, and both
anetTcpNonBlockConnect and anetTcpNonBlockConnectAddr return ANET_ERR after a
failed anetNonBlock with the just-created socket left open. -/
theorem socket_error_paths_leak_descriptor :
    (anetCreateSocketM { sockRes := .ok 5, reuseRes := .err 13 } emptyEff).1 = none ∧
    (anetCreateSocketM { sockRes := .ok 5, reuseRes := .err 13 } emptyEff).2.opened = [5] ∧
    (anetCreateSocketM { sockRes := .ok 5, reuseRes := .err 13 } emptyEff).2.closed = [] ∧
    (anetTcpNonBlockConnect "h" (.ok [candNonBlockFailsB]) false).ret = ANET_ERR ∧
    (anetTcpNonBlockConnect "h" (.ok [candNonBlockFailsB]) false).eff.opened = [5] ∧
    (anetTcpNonBlockConnect "h" (.ok [candNonBlockFailsB]) false).eff.closed = [] ∧
    (anetTcpNonBlockConnectAddr candNonBlockFailsB false).ret = ANET_ERR ∧
    (anetTcpNonBlockConnectAddr candNonBlockFailsB false).eff.opened = [5] ∧
    (anetTcpNonBlockConnectAddr candNonBlockFailsB false).eff.closed = [] := by
  decide

/-- An IPv6 resolved candidate that connects successfully: a 28-byte
sockaddr_in6 (family 10, port 8080, flowinfo 0, a 2001:db8::42 address at
offset 8, scope id 0). -/
def candV6Ok : Cand :=
  { family := AF_INET6
  , addrBytes := [10, 0, 31, 144, 0, 0, 0, 0,
                  32, 1, 13, 184, 0, 0, 0, 0, 0, 0, 0, 0, 0, 0, 0, 66,
                  0, 0, 0, 0]
  , beh := { create := { sockRes := .ok 5, reuseRes := .ok () }
           , getflRes := .ok 0, setflRes := .ok (), connRes := .ok () } }

/-- Claim C7: the claim says the full socket address of the successful
candidate is copied into the out-address slot.  The C copies sizeof(&ss) = 8
bytes, so for this successful IPv6 candidate (28-byte sockaddr_in6) the slot
receives only the first 8 bytes — the 16 address bytes at offset 8 are never
copied; a NULL slot receives nothing, as claimed.  anetTcpNonBlockConnectAddr
has the same memcpy. -/
theorem connect_out_addr_truncated :
    0 ≤ (anetTcpConnect "h" (.ok [candV6Ok]) true).ret ∧
    (anetTcpConnect "h" (.ok [candV6Ok]) true).ss = some (candV6Ok.addrBytes.take 8) ∧
    (anetTcpConnect "h" (.ok [candV6Ok]) true).ss ≠ some candV6Ok.addrBytes ∧
    (anetTcpConnect "h" (.ok [candV6Ok]) false).ss = none ∧
    (anetTcpNonBlockConnectAddr candV6Ok true).ss = some (candV6Ok.addrBytes.take 8) ∧
    (anetTcpNonBlockConnectAddr candV6Ok true).ss ≠ some candV6Ok.addrBytes := by
  decide

/-- The peer socket address for the accept scenario: a 28-byte sockaddr_in6
whose address bytes live at offsets 8 to 23. -/
def acceptPeerV6 : List Nat :=
  [10, 0, 31, 144, 0, 0, 0, 0,
   32, 1, 13, 184, 0, 0, 0, 0, 0, 0, 0, 0, 0, 0, 0, 66,
   0, 0, 0, 0]

/-- Claim C8: anetTcpAccept does retry transparently on any number of EINTR
deliveries and returns the accepted descriptor, and any other failure yields
ANET_ERR with an accept-prefixed message; but because socklen_t sslen =
sizeof(&ss), the slot receives only the first 8 bytes of the peer address —
the peer socket address is not stored in full. -/
theorem accept_retries_eintr_but_truncates_peer :
    (∀ (k fd : Nat),
      anetTcpAccept (List.replicate k (SysRes.err EINTR) ++ [SysRes.ok fd]) acceptPeerV6 true
        = some { ret := (fd : Int), sink := none, ss := some (acceptPeerV6.take sizeofPtr) }) ∧
    anetTcpAccept [SysRes.err 9] acceptPeerV6 true
      = some { ret := ANET_ERR, sink := some ("accept: " ++ strerror 9), ss := none } ∧
    acceptPeerV6.take sizeofPtr ≠ acceptPeerV6 := by
  refine ⟨?_, by decide, by decide⟩
  intro k fd
  induction k with
  | zero =>
    simp [anetTcpAccept, anetGenericAcceptM, ANET_ERR, sizeofPtr]
  | succ m ih =>
    simpa [List.replicate_succ, anetTcpAccept, anetGenericAcceptM, EINTR] using ih

/-! Lemmas about the full-count read/write loops. -/

/-- If the pending reads are all positive and sum to exactly the missing
amount, the loop accumulates all of them and returns the count. -/
lemma readLoop_exact (ps : List Int) : ∀ (t n : Int), (∀ p ∈ ps, 1 ≤ p) →
    t + ps.sum = n → anetReadLoop n ps t = some n := by
  induction ps with
  | nil =>
    intro t n _ h
    simp only [List.sum_nil, add_zero] at h
    simp [anetReadLoop, h]
  | cons p rest ih =>
    intro t n hpos h
    have hp : 1 ≤ p := hpos p (by simp)
    have hrest : ∀ q ∈ rest, 1 ≤ q := fun q hq => hpos q (by simp [hq])
    have hsum : 0 ≤ rest.sum := List.sum_nonneg fun q hq => le_trans (by norm_num) (hrest q hq)
    rw [List.sum_cons] at h
    have hne : t ≠ n := by omega
    have hp0 : p ≠ 0 := by omega
    have hpm : p ≠ -1 := by omega
    rw [anetReadLoop, if_neg hne, if_neg hp0, if_neg hpm]
    exact ih (t + p) n hrest (by omega)

/-- If the pending reads are all positive and sum to less than the missing
amount, a trailing EOF makes the loop return the partial total. -/
lemma readLoop_eof (ps : List Int) : ∀ (t n : Int), (∀ p ∈ ps, 1 ≤ p) →
    t + ps.sum < n → anetReadLoop n (ps ++ [0]) t = some (t + ps.sum) := by
  induction ps with
  | nil =>
    intro t n _ h
    simp only [List.sum_nil, add_zero] at h ⊢
    rw [List.nil_append, anetReadLoop, if_neg (by omega : t ≠ n)]
    simp
  | cons p rest ih =>
    intro t n hpos h
    have hp : 1 ≤ p := hpos p (by simp)
    have hrest : ∀ q ∈ rest, 1 ≤ q := fun q hq => hpos q (by simp [hq])
    have hsum : 0 ≤ rest.sum := List.sum_nonneg fun q hq => le_trans (by norm_num) (hrest q hq)
    rw [List.sum_cons] at h ⊢
    have hne : t ≠ n := by omega
    have hp0 : p ≠ 0 := by omega
    have hpm : p ≠ -1 := by omega
    rw [List.cons_append, anetReadLoop, if_neg hne, if_neg hp0, if_neg hpm]
    have := ih (t + p) n hrest (by omega)
    rw [this]
    congr 1
    omega

/-- If the pending reads are all positive and sum to less than the missing
amount, a trailing hard error makes the loop return -1. -/
lemma readLoop_err (ps : List Int) : ∀ (t n : Int), (∀ p ∈ ps, 1 ≤ p) →
    t + ps.sum < n → anetReadLoop n (ps ++ [(-1 : Int)]) t = some (-1) := by
  induction ps with
  | nil =>
    intro t n _ h
    simp only [List.sum_nil, add_zero] at h
    rw [List.nil_append, anetReadLoop, if_neg (by omega : t ≠ n)]
    simp
  | cons p rest ih =>
    intro t n hpos h
    have hp : 1 ≤ p := hpos p (by simp)
    have hrest : ∀ q ∈ rest, 1 ≤ q := fun q hq => hpos q (by simp [hq])
    have hsum : 0 ≤ rest.sum := List.sum_nonneg fun q hq => le_trans (by norm_num) (hrest q hq)
    rw [List.sum_cons] at h
    have hne : t ≠ n := by omega
    have hp0 : p ≠ 0 := by omega
    have hpm : p ≠ -1 := by omega
    rw [List.cons_append, anetReadLoop, if_neg hne, if_neg hp0, if_neg hpm]
    exact ih (t + p) n hrest (by omega)

/-- The write loop is the same computation as the read loop. -/
lemma writeLoop_eq_readLoop (count : Int) (rs : List Int) :
    ∀ t, anetWriteLoop count rs t = anetReadLoop count rs t := by
  induction rs with
  | nil => intro t; rfl
  | cons r rest ih =>
    intro t
    rw [anetWriteLoop, anetReadLoop, ih (t + r)]

/-- On a POSIX-conforming trace the loop result stays within bounds: either
-1 or a total between the starting total and the count. -/
lemma readLoop_bounds (rs : List Int) : ∀ (n t res : Int), 0 ≤ t → t ≤ n →
    goodTrace rs (n - t) = true → anetReadLoop n rs t = some res →
    res = -1 ∨ (0 ≤ res ∧ res ≤ n) := by
  induction rs with
  | nil =>
    intro n t res h0 h1 _ hloop
    rw [anetReadLoop] at hloop
    by_cases ht : t = n
    · rw [if_pos ht] at hloop
      right
      obtain rfl := Option.some_injective _ hloop
      omega
    · rw [if_neg ht] at hloop
      exact absurd hloop (by simp)
  | cons r rest ih =>
    intro n t res h0 h1 hg hloop
    rw [anetReadLoop] at hloop
    by_cases ht : t = n
    · rw [if_pos ht] at hloop
      right
      obtain rfl := Option.some_injective _ hloop
      omega
    · rw [if_neg ht] at hloop
      by_cases hr0 : r = 0
      · rw [if_pos hr0] at hloop
        right
        obtain rfl := Option.some_injective _ hloop
        omega
      · rw [if_neg hr0] at hloop
        by_cases hrm : r = -1
        · rw [if_pos hrm] at hloop
          left
          exact (Option.some_injective _ hloop).symm
        · rw [if_neg hrm] at hloop
          rw [goodTrace, if_neg (by tauto : ¬(r = 0 ∨ r = -1))] at hg
          simp only [Bool.and_eq_true, decide_eq_true_eq] at hg
          obtain ⟨⟨hr1, hr2⟩, hg'⟩ := hg
          refine ih n (t + r) res (by omega) (by omega) ?_ hloop
          have : n - (t + r) = n - t - r := by ring
          rw [this]
          exact hg'

/-- Claim C3: anetRead issues repeated reads until exactly n bytes have
accumulated; on a trace of positive reads summing to n it returns n; if the
positive reads sum to less than n, a read returning 0 (EOF) makes it return
the partial total read so far (possibly 0, when ps is empty), and a read
returning -1 makes it return -1. -/
theorem anetRead_full_count_spec (ps : List Int) (n : Int) (hpos : ∀ p ∈ ps, 1 ≤ p) :
    (ps.sum = n → anetRead ps n = some n) ∧
    (ps.sum < n → anetRead (ps ++ [0]) n = some ps.sum) ∧
    (ps.sum < n → anetRead (ps ++ [(-1 : Int)]) n = some (-1)) := by
  refine ⟨fun h => ?_, fun h => ?_, fun h => ?_⟩
  · exact readLoop_exact ps 0 n hpos (by omega)
  · have := readLoop_eof ps 0 n hpos (by omega)
    rw [anetRead, this, zero_add]
  · exact readLoop_err ps 0 n hpos (by omega)

/-- Witness for C3 at a concrete trace: two reads of 3 and 4 bytes complete a
7-byte request; the same reads followed by EOF on a 9-byte request return the
partial total 7; followed by a hard error they return -1. -/
theorem anetRead_full_count_spec_witness :
    anetRead [3, 4] 7 = some 7 ∧
    anetRead [3, 4, 0] 9 = some (List.sum [3, 4]) ∧
    anetRead [3, 4, -1] 9 = some (-1) := by
  have h7 := anetRead_full_count_spec [3, 4] 7 (by decide)
  have h9 := anetRead_full_count_spec [3, 4] 9 (by decide)
  exact ⟨h7.1 (by decide), by simpa using h9.2.1 (by decide), by simpa using h9.2.2 (by decide)⟩

/-- Claim C4: anetWrite issues repeated writes until exactly n bytes have been
written; a zero return terminates the loop with the total written so far, a -1
return makes it return -1, and positive writes summing to n make it return
n. -/
theorem anetWrite_full_count_spec (ps : List Int) (n : Int) (hpos : ∀ p ∈ ps, 1 ≤ p) :
    (ps.sum = n → anetWrite ps n = some n) ∧
    (ps.sum < n → anetWrite (ps ++ [0]) n = some ps.sum) ∧
    (ps.sum < n → anetWrite (ps ++ [(-1 : Int)]) n = some (-1)) := by
  refine ⟨fun h => ?_, fun h => ?_, fun h => ?_⟩
  · rw [anetWrite, writeLoop_eq_readLoop]
    exact readLoop_exact ps 0 n hpos (by omega)
  · rw [anetWrite, writeLoop_eq_readLoop, readLoop_eof ps 0 n hpos (by omega), zero_add]
  · rw [anetWrite, writeLoop_eq_readLoop]
    exact readLoop_err ps 0 n hpos (by omega)

/-- Witness for C4 at a concrete trace: writes of 2 and 5 bytes complete a
7-byte request; with a zero return after them an 11-byte request returns the
partial total 7; a -1 return yields -1. -/
theorem anetWrite_full_count_spec_witness :
    anetWrite [2, 5] 7 = some 7 ∧
    anetWrite [2, 5, 0] 11 = some (List.sum [2, 5]) ∧
    anetWrite [2, 5, -1] 11 = some (-1) := by
  have h7 := anetWrite_full_count_spec [2, 5] 7 (by decide)
  have h11 := anetWrite_full_count_spec [2, 5] 11 (by decide)
  exact ⟨h7.1 (by decide), by simpa using h11.2.1 (by decide), by simpa using h11.2.2 (by decide)⟩

/-- Claim C10: on any POSIX-conforming trace, whenever the read or write loop
returns, the result is -1 or a total in the range 0 to n; and with count 0
both return 0 immediately — even on the empty trace, i.e. without performing
any read or write call. -/
theorem anet_read_write_bounds (rs : List Int) (n res : Int) (hn : 0 ≤ n)
    (hg : goodTrace rs n = true) :
    (anetRead rs n = some res → res = -1 ∨ (0 ≤ res ∧ res ≤ n)) ∧
    (anetWrite rs n = some res → res = -1 ∨ (0 ≤ res ∧ res ≤ n)) ∧
    anetRead rs 0 = some 0 ∧ anetWrite rs 0 = some 0 ∧
    anetRead [] 0 = some 0 ∧ anetWrite [] 0 = some 0 := by
  have hg' : goodTrace rs (n - 0) = true := by simpa using hg
  have hz : ∀ rs' : List Int, anetReadLoop 0 rs' 0 = some 0 := by
    intro rs'
    cases rs' <;> simp [anetReadLoop]
  have hzw : ∀ rs' : List Int, anetWriteLoop 0 rs' 0 = some 0 := by
    intro rs'
    rw [writeLoop_eq_readLoop]
    exact hz _
  refine ⟨fun h => ?_, fun h => ?_, hz rs, hzw rs, hz [], hzw []⟩
  · exact readLoop_bounds rs n 0 res le_rfl hn hg' h
  · rw [anetWrite, writeLoop_eq_readLoop] at h
    exact readLoop_bounds rs n 0 res le_rfl hn hg' h

/-- Witness for C10 at a concrete trace: the trace 2, 3, EOF is
POSIX-conforming for a 9-byte request and the returned total 5 is within
bounds; count 0 returns 0 on the empty trace. -/
theorem anet_read_write_bounds_witness :
    (0 : Int) ≤ 9 ∧ goodTrace [2, 3, 0] 9 = true ∧
    ((5 : Int) = -1 ∨ ((0 : Int) ≤ 5 ∧ (5 : Int) ≤ 9)) ∧
    anetRead [] 0 = some 0 ∧ anetWrite [] 0 = some 0 := by
  have h := anet_read_write_bounds [2, 3, 0] 9 5 (by decide) (by decide)
  exact ⟨by decide, by decide, h.1 (by decide), h.2.2.2.2.1, h.2.2.2.2.2⟩

/-- Claim C5: anetAddrStrdup on an IPv4-family sockaddr yields the dotted-quad
string of the four sin_addr bytes (offset 4), on an IPv6-family sockaddr the
colon-hex string of the sixteen sin6_addr bytes (offset 8), and on any other
family or a NULL input exactly the string NOT_AN_ADDRESS. -/
theorem anetAddrStrdup_spec :
    (∀ (h0 h1 h2 h3 a b c d : Nat) (rest : List Nat),
      anetAddrStrdup (some ⟨AF_INET, h0 :: h1 :: h2 :: h3 :: a :: b :: c :: d :: rest⟩)
        = toString a ++ "." ++ toString b ++ "." ++ toString c ++ "." ++ toString d) ∧
    (∀ (hdr adr rest : List Nat), hdr.length = 8 → adr.length = 16 →
      anetAddrStrdup (some ⟨AF_INET6, hdr ++ adr ++ rest⟩) = inetNtop6 adr) ∧
    (∀ (fam : Nat) (bs : List Nat), fam ≠ AF_INET → fam ≠ AF_INET6 →
      anetAddrStrdup (some ⟨fam, bs⟩) = "NOT_AN_ADDRESS") ∧
    anetAddrStrdup none = "NOT_AN_ADDRESS" := by
  refine ⟨?_, ?_, ?_, rfl⟩
  · intro h0 h1 h2 h3 a b c d rest
    simp [anetAddrStrdup, inetNtop4]
  · intro hdr adr rest hh ha
    have hifam : AF_INET6 ≠ AF_INET := by decide
    rw [anetAddrStrdup]
    simp only [if_neg hifam, if_pos rfl]
    rw [← hh, List.append_assoc, List.drop_left, ← ha, List.take_left]
    simp
  · intro fam bs hf4 hf6
    rw [anetAddrStrdup]
    simp only [if_neg hf4, if_neg hf6]

/-- Witness for C5 at concrete sockaddr bytes: an IPv6 sockaddr for
2001:db8::42 is rendered through the colon-hex converter, and family 7 is
rendered as NOT_AN_ADDRESS. -/
theorem anetAddrStrdup_spec_witness :
    anetAddrStrdup (some ⟨AF_INET6,
        [10, 0, 31, 144, 0, 0, 0, 0] ++
        [32, 1, 13, 184, 0, 0, 0, 0, 0, 0, 0, 0, 0, 0, 0, 66] ++ []⟩)
      = inetNtop6 [32, 1, 13, 184, 0, 0, 0, 0, 0, 0, 0, 0, 0, 0, 0, 66] ∧
    anetAddrStrdup (some ⟨7, [1, 2, 3]⟩) = "NOT_AN_ADDRESS" :=
  ⟨anetAddrStrdup_spec.2.1 [10, 0, 31, 144, 0, 0, 0, 0]
      [32, 1, 13, 184, 0, 0, 0, 0, 0, 0, 0, 0, 0, 0, 0, 66] [] (by decide) (by decide),
   anetAddrStrdup_spec.2.2.1 7 [1, 2, 3] (by decide) (by decide)⟩

/-! Lemmas about the anetTcpServer candidate loop. -/

/-- The descriptor contributed to the output array by a candidate on which
every kernel call succeeds. -/
def srvSuccFd (c : SrvCand) : Option Nat :=
  match c.beh.create.sockRes with
  | .err _ => none
  | .ok s =>
    if c.beh.create.reuseRes.isOk && c.beh.bindRes.isOk && c.beh.listenRes.isOk then some s
    else none

/-- The descriptor a candidate closes inside anetListen when its bind or
listen fails. -/
def srvClosedFd (c : SrvCand) : Option Nat :=
  match c.beh.create.sockRes with
  | .err _ => none
  | .ok s =>
    if c.beh.create.reuseRes.isOk && !(c.beh.bindRes.isOk && c.beh.listenRes.isOk) then some s
    else none

@[simp] lemma v6onlyStep_closed (s fam : Nat) (e : Eff) :
    (v6onlyStep s fam e).closed = e.closed := by
  rw [v6onlyStep]
  split <;> rfl

@[simp] lemma setErr_closed (e : Eff) (m : String) : (setErr e m).closed = e.closed := rfl

@[simp] lemma setErr_opened (e : Eff) (m : String) : (setErr e m).opened = e.opened := rfl

/-- The output array of the server loop: the starting array followed by the
descriptors of the fully successful candidates in resolver order, truncated to
the remaining capacity. -/
lemma serverLoop_fds (nfds : Int) : ∀ (cands : List SrvCand) (fds : List Nat) (e : Eff),
    (serverLoop nfds cands fds e).1
      = fds ++ (cands.filterMap srvSuccFd).take (nfds - fds.length).toNat := by
  intro cands
  induction cands with
  | nil =>
    intro fds e
    simp [serverLoop]
  | cons c rest ih =>
    intro fds e
    by_cases hlt : (fds.length : Int) < nfds
    case neg =>
      have h0 : (nfds - fds.length).toNat = 0 := by omega
      simp [serverLoop, hlt, h0]
    case pos =>
      obtain ⟨fam, ⟨⟨sockRes, reuseRes⟩, bindRes, listenRes⟩⟩ := c
      cases sockRes with
      | err en => simp [serverLoop, hlt, anetCreateSocketM, srvSuccFd, ih]
      | ok s =>
        cases reuseRes with
        | err en =>
          simp [serverLoop, hlt, anetCreateSocketM, srvSuccFd, SysRes.isOk, ih]
        | ok u =>
          cases bindRes with
          | err en =>
            simp [serverLoop, hlt, anetCreateSocketM, anetListenM, srvSuccFd, SysRes.isOk, ih]
          | ok u2 =>
            cases listenRes with
            | err en =>
              simp [serverLoop, hlt, anetCreateSocketM, anetListenM, srvSuccFd, SysRes.isOk, ih]
            | ok u3 =>
              have hk : (nfds - fds.length).toNat
                  = (nfds - (((fds ++ [s]).length : Nat) : Int)).toNat + 1 := by
                simp only [List.length_append, List.length_cons, List.length_nil]
                omega
              simp [serverLoop, hlt, anetCreateSocketM, anetListenM, srvSuccFd, SysRes.isOk,
                ih, hk, List.take_succ_cons]

/-- When there is capacity for every candidate, the descriptors closed by the
server loop are exactly those of candidates whose socket was created but whose
bind or listen failed, in resolver order. -/
lemma serverLoop_closed (nfds : Int) : ∀ (cands : List SrvCand) (fds : List Nat) (e : Eff),
    (cands.length : Int) + fds.length ≤ nfds →
    (serverLoop nfds cands fds e).2.closed = e.closed ++ cands.filterMap srvClosedFd := by
  intro cands
  induction cands with
  | nil =>
    intro fds e _
    simp [serverLoop]
  | cons c rest ih =>
    intro fds e hle
    simp only [List.length_cons] at hle
    have hlt : (fds.length : Int) < nfds := by push_cast at hle; omega
    obtain ⟨fam, ⟨⟨sockRes, reuseRes⟩, bindRes, listenRes⟩⟩ := c
    cases sockRes with
    | err en =>
      rw [show (serverLoop nfds (⟨fam, ⟨⟨.err en, reuseRes⟩, bindRes, listenRes⟩⟩ :: rest) fds e)
          = serverLoop nfds rest fds (setErr e ("creating socket: " ++ strerror en)) by
        simp [serverLoop, hlt, anetCreateSocketM]]
      rw [ih fds _ (by push_cast at hle ⊢; omega)]
      simp [srvClosedFd]
    | ok s =>
      cases reuseRes with
      | err en =>
        rw [show (serverLoop nfds (⟨fam, ⟨⟨.ok s, .err en⟩, bindRes, listenRes⟩⟩ :: rest) fds e)
            = serverLoop nfds rest fds
                (setErr { e with opened := e.opened ++ [s] }
                  ("setsockopt SO_REUSEADDR: " ++ strerror en)) by
          simp [serverLoop, hlt, anetCreateSocketM]]
        rw [ih fds _ (by push_cast at hle ⊢; omega)]
        simp [srvClosedFd, SysRes.isOk]
      | ok u =>
        cases bindRes with
        | err en =>
          rw [show (serverLoop nfds (⟨fam, ⟨⟨.ok s, .ok u⟩, .err en, listenRes⟩⟩ :: rest) fds e)
              = serverLoop nfds rest fds
                  ({ setErr (v6onlyStep s fam { e with opened := e.opened ++ [s] })
                      ("bind: " ++ strerror en) with
                     closed := (v6onlyStep s fam { e with opened := e.opened ++ [s] }).closed
                       ++ [s] }) by
            simp [serverLoop, hlt, anetCreateSocketM, anetListenM]]
          rw [ih fds _ (by push_cast at hle ⊢; omega)]
          simp [srvClosedFd, SysRes.isOk]
        | ok u2 =>
          cases listenRes with
          | err en =>
            rw [show (serverLoop nfds (⟨fam, ⟨⟨.ok s, .ok u⟩, .ok u2, .err en⟩⟩ :: rest) fds e)
                = serverLoop nfds rest fds
                    ({ setErr (v6onlyStep s fam { e with opened := e.opened ++ [s] })
                        ("listen: " ++ strerror en) with
                       closed := (v6onlyStep s fam { e with opened := e.opened ++ [s] }).closed
                         ++ [s] }) by
              simp [serverLoop, hlt, anetCreateSocketM, anetListenM]]
            rw [ih fds _ (by push_cast at hle ⊢; omega)]
            simp [srvClosedFd, SysRes.isOk]
          | ok u3 =>
            have hstep : serverLoop nfds (⟨fam, ⟨⟨.ok s, .ok u⟩, .ok u2, .ok u3⟩⟩ :: rest) fds e
                = serverLoop nfds rest (fds ++ [s])
                    (v6onlyStep s fam { e with opened := e.opened ++ [s] }) := by
              simp [serverLoop, hlt, anetCreateSocketM, anetListenM]
            have hle' : (rest.length : Int) + ((fds ++ [s]).length : Nat) ≤ nfds := by
              simp only [List.length_append, List.length_cons, List.length_nil]
              push_cast at hle ⊢
              omega
            rw [hstep, ih (fds ++ [s]) _ hle']
            simp [srvClosedFd, SysRes.isOk]

/-- Claim C9: anetTcpServer appends at most nfds descriptors, namely those of
the fully successful candidates in resolver order; it skips failing candidates
and closes the socket of any candidate whose bind or listen failed (stated
under capacity for all candidates); it returns the number of listeners when
positive, ANET_ERR when none succeeded, and on ANET_ERR no descriptor is
handed to the caller. -/
theorem anetTcpServer_spec (cands : List SrvCand) (nfds : Int) (host : String) :
    (anetTcpServer host (.ok cands) nfds).fds
        = (cands.filterMap srvSuccFd).take nfds.toNat ∧
    (anetTcpServer host (.ok cands) nfds).fds.length ≤ nfds.toNat ∧
    (0 < (anetTcpServer host (.ok cands) nfds).fds.length →
      (anetTcpServer host (.ok cands) nfds).ret
        = ((anetTcpServer host (.ok cands) nfds).fds.length : Int)) ∧
    ((anetTcpServer host (.ok cands) nfds).fds.length = 0 →
      (anetTcpServer host (.ok cands) nfds).ret = ANET_ERR) ∧
    ((anetTcpServer host (.ok cands) nfds).ret = ANET_ERR →
      (anetTcpServer host (.ok cands) nfds).fds = []) ∧
    ((cands.length : Int) ≤ nfds →
      (anetTcpServer host (.ok cands) nfds).eff.closed = cands.filterMap srvClosedFd) := by
  rcases hsl : serverLoop nfds cands [] emptyEff with ⟨fds, e⟩
  have hunf : anetTcpServer host (.ok cands) nfds
      = { ret := if 0 < fds.length then (fds.length : Int) else ANET_ERR
        , fds := fds, eff := { e with freed := true } } := by
    rw [anetTcpServer, hsl]
  have hfds : fds = (cands.filterMap srvSuccFd).take nfds.toNat := by
    have h := serverLoop_fds nfds cands [] emptyEff
    rw [hsl] at h
    simpa using h
  rw [hunf]
  dsimp only
  refine ⟨hfds, ?_, ?_, ?_, ?_, ?_⟩
  · rw [hfds]
    exact List.length_take_le _ _
  · intro h
    rw [if_pos h]
  · intro h
    rw [if_neg (by omega)]
  · intro h
    by_cases hp : 0 < fds.length
    · rw [if_pos hp, ANET_ERR] at h
      exfalso
      omega
    · exact List.length_eq_zero.mp (by omega)
  · intro hcap
    have h := serverLoop_closed nfds cands [] emptyEff (by simpa using hcap)
    rw [hsl] at h
    simpa [emptyEff] using h

/-- A passive candidate on which socket, SO_REUSEADDR, bind and listen all
succeed, producing listener 4. -/
def srvCandOk : SrvCand :=
  { family := AF_INET
  , beh := { create := { sockRes := .ok 4, reuseRes := .ok () }
           , bindRes := .ok (), listenRes := .ok () } }

/-- A passive IPv6 candidate whose bind fails with errno 13 after socket 5 was
created. -/
def srvCandBindFails : SrvCand :=
  { family := AF_INET6
  , beh := { create := { sockRes := .ok 5, reuseRes := .ok () }
           , bindRes := .err 13, listenRes := .ok () } }

/-- Witness for C9 at a concrete resolver outcome: one fully successful
candidate and one whose bind fails, with room for four listeners — one
listener is produced, the return value equals the listener count, and the
failed candidate\x27s socket is the one closed. -/
theorem anetTcpServer_spec_witness :
    0 < (anetTcpServer "x" (.ok [srvCandOk, srvCandBindFails]) 4).fds.length ∧
    (anetTcpServer "x" (.ok [srvCandOk, srvCandBindFails]) 4).ret
      = ((anetTcpServer "x" (.ok [srvCandOk, srvCandBindFails]) 4).fds.length : Int) ∧
    (([srvCandOk, srvCandBindFails].length : Int) ≤ 4) ∧
    (anetTcpServer "x" (.ok [srvCandOk, srvCandBindFails]) 4).eff.closed
      = [srvCandOk, srvCandBindFails].filterMap srvClosedFd := by
  have h := anetTcpServer_spec [srvCandOk, srvCandBindFails] 4 "x"
  exact ⟨by decide, h.2.2.1 (by decide), by decide, h.2.2.2.2.2 (by decide)⟩

/-! The error-sink discipline of the connect loop (claim C6). -/

/-- A resolved candidate whose connect fails with errno 111 (connection
refused) after socket 5 was created; the loop moves on to the next
candidate. -/
def candConnRefused : Cand :=
  { family := AF_INET, addrBytes := List.range 16
  , beh := { create := { sockRes := .ok 5, reuseRes := .ok () }
           , getflRes := .ok 0, setflRes := .ok (), connRes := .err 111 } }

/-- A resolved candidate on which every call succeeds, yielding socket 6. -/
def candConnOk : Cand :=
  { family := AF_INET, addrBytes := List.range 16
  , beh := { create := { sockRes := .ok 6, reuseRes := .ok () }
           , getflRes := .ok 0, setflRes := .ok (), connRes := .ok () } }

/-- Counterexample to C6 as stated: a blocking connect whose first candidate
fails (connect: errno 111) and whose second succeeds returns the socket (a
non-ERR value), yet the error sink is not left untouched — it still holds the
first candidate\x27s failure message. -/
theorem connect_success_sink_touched :
    0 ≤ (anetTcpConnect "h" (.ok [candConnRefused, candConnOk]) false).ret ∧
    (anetTcpConnect "h" (.ok [candConnRefused, candConnOk]) false).eff.sink
      = some ("connect: " ++ strerror 111) := by
  decide

/-- Whether every operation the connect loop performs on a candidate succeeds
(so the loop returns this candidate\x27s socket without writing to the sink):
socket and SO_REUSEADDR succeed, the two fcntl calls succeed when
non-blocking was requested, and connect completes — or is pending with
EINPROGRESS on the non-blocking path. -/
def candClean (flags : Nat) (c : Cand) : Bool :=
  c.beh.create.sockRes.isOk && c.beh.create.reuseRes.isOk &&
  (if flags &&& 1 ≠ 0 then c.beh.getflRes.isOk && c.beh.setflRes.isOk else true) &&
  (match c.beh.connRes with
   | .ok _ => true
   | .err en => decide (en = EINPROGRESS) && decide (flags &&& 1 ≠ 0))

/-- The connect loop never erases the sink: if the final sink is untouched,
it was untouched at entry. -/
lemma connectLoop_sink_none (flags : Nat) (sp : Bool) :
    ∀ (cands : List Cand) (e : Eff),
      (connectLoop flags sp cands e).eff.sink = none → e.sink = none := by
  intro cands
  induction cands with
  | nil =>
    intro e h
    simpa [connectLoop] using h
  | cons c rest ih =>
    intro e h
    obtain ⟨fam, ab, ⟨⟨sockRes, reuseRes⟩, gfl, sfl, conn⟩⟩ := c
    by_cases hnb : flags &&& 1 ≠ 0 <;>
      cases sockRes <;> cases reuseRes <;> cases gfl <;> cases sfl <;> cases conn <;>
        simp [connectLoop, anetCreateSocketM, anetNonBlockM, connectSucceed, setErr,
          hnb] at h <;>
        first
          | exact h
          | exact absurd (ih _ h) (by simp [setErr])
          | (split_ifs at h <;>
              first
                | exact h
                | exact absurd (ih _ h) (by simp [setErr]))

/-- If the loop starting at a candidate leaves the sink untouched, then that
first candidate was fully clean and the sink was untouched at entry. -/
lemma connectLoop_cons_sink_none (flags : Nat) (sp : Bool) (c : Cand) (rest : List Cand)
    (e : Eff) (h : (connectLoop flags sp (c :: rest) e).eff.sink = none) :
    candClean flags c = true ∧ e.sink = none := by
  obtain ⟨fam, ab, ⟨⟨sockRes, reuseRes⟩, gfl, sfl, conn⟩⟩ := c
  by_cases hnb : flags % 2 = 1 <;>
    cases sockRes <;> cases reuseRes <;> cases gfl <;> cases sfl <;> cases conn <;>
      simp [connectLoop, anetCreateSocketM, anetNonBlockM, connectSucceed, setErr,
        Nat.and_one_is_mod, hnb] at h <;>
      first
        | exact ⟨by simp [candClean, SysRes.isOk, Nat.and_one_is_mod, hnb], h⟩
        | exact absurd (connectLoop_sink_none flags sp rest _ h) (by simp [setErr])
        | (split_ifs at h with hip <;>
            first
              | exact ⟨by simp [candClean, SysRes.isOk, Nat.and_one_is_mod, hnb, hip], h⟩
              | exact absurd (connectLoop_sink_none flags sp rest _ h) (by simp [setErr]))

/-- A fully clean first candidate makes the loop return at once without
writing to the sink. -/
lemma connectLoop_clean_first (flags : Nat) (sp : Bool) (c : Cand) (rest : List Cand)
    (e : Eff) (hc : candClean flags c = true) :
    (connectLoop flags sp (c :: rest) e).eff.sink = e.sink := by
  obtain ⟨fam, ab, ⟨⟨sockRes, reuseRes⟩, gfl, sfl, conn⟩⟩ := c
  by_cases hnb : flags % 2 = 1 <;>
    cases sockRes <;> cases reuseRes <;> cases gfl <;> cases sfl <;> cases conn <;>
      simp [candClean, SysRes.isOk, Nat.and_one_is_mod, hnb] at hc <;>
      simp [connectLoop, anetCreateSocketM, anetNonBlockM, connectSucceed, setErr,
        Nat.and_one_is_mod, hnb, hc]

/-- Claim C6 (amended): with a resolved list, the error sink is left untouched
if and only if no operation failed before the return — that is, the list is
empty, or the loop returned at its first candidate with every call clean
(connect completed, or pending with EINPROGRESS on the non-blocking path).
In every other case — including a call that succeeds on a later candidate
after earlier candidates failed — the sink holds a (single, last-written)
failure message. -/
theorem connect_sink_untouched_iff (flags : Nat) (sp : Bool) (host : String)
    (cands : List Cand) :
    (anetTcpGenericConnect host (.ok cands) flags sp).eff.sink = none ↔
      (cands = [] ∨ ∃ c rest, cands = c :: rest ∧ candClean flags c = true) := by
  simp only [anetTcpGenericConnect]
  constructor
  · intro h
    cases cands with
    | nil => exact Or.inl rfl
    | cons c rest =>
      exact Or.inr ⟨c, rest, rfl, (connectLoop_cons_sink_none flags sp c rest emptyEff h).1⟩
  · intro h
    rcases h with rfl | ⟨c, rest, rfl, hcc⟩
    · simp [connectLoop, emptyEff]
    · rw [connectLoop_clean_first flags sp c rest emptyEff hcc]
      rfl

end Anet
